import Mathlib

/-!
Verification of the pixel-battle browser client (Fazzyt/pixel-battle).

Shallow embedding of the client-side synchronization core:
screen-to-grid coordinate transforms and cell selection
(static/js/canvas.js, modules/InputController.js), the zoom and
pan/offset clamping pipeline (InputController.zoomAtPoint,
updateDragPosition, moveCanvas), the cooldown timer
(app.js startCooldown / endCooldown over the StateManager store),
the WebSocket session manager (reconnect backoff, attempt cap,
outbound message queue, pixel-update message handling) and the
path-addressable state store with synchronous subscriber
notification (modules/StateManager.js).

JavaScript numbers are modelled as exact rationals (ℚ); grid
coordinates, produced by Math.floor, as integers (ℤ).  Pixel colors
and message payloads are modelled by ℕ where their concrete content
is irrelevant to the verified properties.
-/

namespace PixelBattle

/-! ### Configuration (static/js/controls.js CONFIG)

CANVAS_WIDTH = 1600, CANVAS_HEIGHT = 400, PIXEL_SIZE = 5,
MIN_SCALE = 0.5, MAX_SCALE = 10, COOLDOWN_TIME = 60. -/

def CANVAS_WIDTH : ℤ := 1600

def CANVAS_HEIGHT : ℤ := 400

def PIXEL_SIZE : ℚ := 5

def MIN_SCALE : ℚ := 1 / 2

def MAX_SCALE : ℚ := 10

/-! ### Screen → grid transform and cell selection
(modules/InputController.js: screenToCanvas, isValidCanvasPosition,
handlePixelSelection, handleMouseDown) -/

/-- Raw grid coordinates of `InputController.screenToCanvas`:
`x = Math.floor((screenX - rect.left - offsetX) / (PIXEL_SIZE * scale))`
and likewise for `y`. -/
def screenToCanvasXY (pixelSize scale offsetX offsetY rectLeft rectTop sx sy : ℚ) :
    ℤ × ℤ :=
  (⌊(sx - rectLeft - offsetX) / (pixelSize * scale)⌋,
   ⌊(sy - rectTop - offsetY) / (pixelSize * scale)⌋)

/-- Embedding of `InputController.isValidCanvasPosition`:
`pos.x >= 0 && pos.x < config.CANVAS_WIDTH && pos.y >= 0 && pos.y < config.CANVAS_HEIGHT`. -/
def isValidCanvasPosition (w h : ℤ) (p : ℤ × ℤ) : Bool :=
  decide (0 ≤ p.1) && decide (p.1 < w) && decide (0 ≤ p.2) && decide (p.2 < h)

/-- Embedding of `InputController.screenToCanvas`: returns the grid coordinate when it is
valid and `null` (here `none`) otherwise. -/
def screenToCanvas (w h : ℤ) (pixelSize scale offsetX offsetY rectLeft rectTop sx sy : ℚ) :
    Option (ℤ × ℤ) :=
  let p := screenToCanvasXY pixelSize scale offsetX offsetY rectLeft rectTop sx sy
  if isValidCanvasPosition w h p then some p else none

/-- Embedding of `InputController.handlePixelSelection`: re-checks validity and writes
`canvas.selectedPixel`; `none` means no selection is written. -/
def handlePixelSelection (w h : ℤ) (p : ℤ × ℤ) : Option (ℤ × ℤ) :=
  if isValidCanvasPosition w h p then some p else none

/-- Left-button `InputController.handleMouseDown`: converts the click position
with `screenToCanvas` and, when non-null, runs `handlePixelSelection`.
The result is the selection written to the store (`none` = no selection). -/
def mouseDownSelection (w h : ℤ)
    (pixelSize scale offsetX offsetY rectLeft rectTop sx sy : ℚ) : Option (ℤ × ℤ) :=
  match screenToCanvas w h pixelSize scale offsetX offsetY rectLeft rectTop sx sy with
  | some p => handlePixelSelection w h p
  | none => none

/-- C1: For every screen point and viewport state, click selection computes
`gridX = ⌊(sx - offsetX) / (PIXEL_SIZE * scale)⌋` and
`gridY = ⌊(sy - offsetY) / (PIXEL_SIZE * scale)⌋` and selects that cell
exactly when `0 ≤ gridX < 1600` and `0 ≤ gridY < 400`; points mapping
outside the bounds yield no selection.  With cell size 5, scale 1 and
offset (0, 60), a click at screen (100, 160) selects grid cell (20, 20). -/
theorem click_selection_bounds :
    (∀ scale offsetX offsetY sx sy : ℚ,
      mouseDownSelection CANVAS_WIDTH CANVAS_HEIGHT PIXEL_SIZE scale offsetX offsetY 0 0 sx sy =
        if 0 ≤ ⌊(sx - offsetX) / (PIXEL_SIZE * scale)⌋ ∧
            ⌊(sx - offsetX) / (PIXEL_SIZE * scale)⌋ < CANVAS_WIDTH ∧
            0 ≤ ⌊(sy - offsetY) / (PIXEL_SIZE * scale)⌋ ∧
            ⌊(sy - offsetY) / (PIXEL_SIZE * scale)⌋ < CANVAS_HEIGHT then
          some (⌊(sx - offsetX) / (PIXEL_SIZE * scale)⌋, ⌊(sy - offsetY) / (PIXEL_SIZE * scale)⌋)
        else none) ∧
    mouseDownSelection CANVAS_WIDTH CANVAS_HEIGHT PIXEL_SIZE 1 0 60 0 0 100 160 = some (20, 20) := by
  constructor
  · intro scale offsetX offsetY sx sy
    simp only [mouseDownSelection, screenToCanvas, handlePixelSelection, screenToCanvasXY,
      isValidCanvasPosition, sub_zero, Bool.and_eq_true, decide_eq_true_eq]
    by_cases h : 0 ≤ ⌊(sx - offsetX) / (PIXEL_SIZE * scale)⌋ ∧
        ⌊(sx - offsetX) / (PIXEL_SIZE * scale)⌋ < CANVAS_WIDTH ∧
        0 ≤ ⌊(sy - offsetY) / (PIXEL_SIZE * scale)⌋ ∧
        ⌊(sy - offsetY) / (PIXEL_SIZE * scale)⌋ < CANVAS_HEIGHT
    · obtain ⟨h1, h2, h3, h4⟩ := h
      simp [h1, h2, h3, h4]
    · rw [if_neg h]
      have h' : ¬ (((0 ≤ ⌊(sx - offsetX) / (PIXEL_SIZE * scale)⌋ ∧
          ⌊(sx - offsetX) / (PIXEL_SIZE * scale)⌋ < CANVAS_WIDTH) ∧
          0 ≤ ⌊(sy - offsetY) / (PIXEL_SIZE * scale)⌋) ∧
          ⌊(sy - offsetY) / (PIXEL_SIZE * scale)⌋ < CANVAS_HEIGHT) := by
        intro hc
        exact h ⟨hc.1.1.1, hc.1.1.2, hc.1.2, hc.2⟩
      simp [h']
  · have hf : ⌊(100 : ℚ) / PIXEL_SIZE⌋ = 20 := by
      norm_num [PIXEL_SIZE]
    have hg : ⌊((160 : ℚ) - 60) / PIXEL_SIZE⌋ = 20 := by
      norm_num [PIXEL_SIZE]
    simp [mouseDownSelection, screenToCanvas, handlePixelSelection, screenToCanvasXY,
      isValidCanvasPosition, CANVAS_WIDTH, CANVAS_HEIGHT, hf, hg]

/-! ### Offset clamping (InputController.updateDragPosition,
handleTouchDrag, moveCanvas, zoomAtPoint — identical clamp in all four) -/

/-- X-axis offset clamp.  When the scaled logical canvas is wider than the
visible area: `Math.min(0, Math.max(offset, finalWidth - logicalW * scale))`;
otherwise, with `maxOffset = Math.max(0, finalWidth - logicalW * scale)`:
`Math.max(-maxOffset, Math.min(offset, maxOffset))`. -/
def clampOffsetX (logicalW scaleV finalWidth offset : ℚ) : ℚ :=
  if finalWidth < logicalW * scaleV then
    min 0 (max offset (finalWidth - logicalW * scaleV))
  else
    let maxOffset := max 0 (finalWidth - logicalW * scaleV)
    max (-maxOffset) (min offset maxOffset)

/-- Y-axis offset clamp.  When the scaled logical canvas is taller than the
visible area:
`Math.min(headerHeight, Math.max(offset, finalHeight - logicalH * scale))`;
otherwise, with `maxOffset = Math.max(0, finalHeight - logicalH * scale)`:
`Math.max(headerHeight - maxOffset, Math.min(offset, headerHeight + maxOffset))`. -/
def clampOffsetY (logicalH scaleV finalHeight headerHeight offset : ℚ) : ℚ :=
  if finalHeight < logicalH * scaleV then
    min headerHeight (max offset (finalHeight - logicalH * scaleV))
  else
    let maxOffset := max 0 (finalHeight - logicalH * scaleV)
    max (headerHeight - maxOffset) (min offset (headerHeight + maxOffset))

/-! ### Zoom (InputController.zoomAtPoint, PixelCanvas.handleWheel) -/

/-- Canvas viewport state: `canvas.scale`, `canvas.offsetX`, `canvas.offsetY`. -/
structure CanvasView where
  scale : ℚ
  offsetX : ℚ
  offsetY : ℚ
  deriving DecidableEq

/-- Embedding of `InputController.zoomAtPoint`: the new scale is
`Math.max(0.1, Math.min(20, scale * zoomFactor))` (note: hardcoded bounds,
not the configured `MIN_SCALE`/`MAX_SCALE`); if it differs from the current
scale, the pre-clamp offsets `screenPoint - (screenPoint - offset)/scale * newScale`
are computed and then clamped with the offset clamps above.
`logicalW`/`logicalH` are `CANVAS_WIDTH * PIXEL_SIZE` and
`CANVAS_HEIGHT * PIXEL_SIZE`; `finalW`/`finalH`/`headerH` are the measured
viewport dimensions and header height. -/
def zoomAtPoint (logicalW logicalH finalW finalH headerH : ℚ)
    (s : CanvasView) (px py zoomFactor : ℚ) : CanvasView :=
  let newScale := max (1 / 10) (min 20 (s.scale * zoomFactor))
  if newScale = s.scale then s
  else
    let mouseCanvasX := (px - s.offsetX) / s.scale
    let mouseCanvasY := (py - s.offsetY) / s.scale
    let newOffsetX := px - mouseCanvasX * newScale
    let newOffsetY := py - mouseCanvasY * newScale
    { scale := newScale,
      offsetX := clampOffsetX logicalW newScale finalW newOffsetX,
      offsetY := clampOffsetY logicalH newScale finalH headerH newOffsetY }

/-- The accepted branch of `PixelCanvas.handleWheel` (static/js/canvas.js):
`oldWorld = (mouse - offset)/scale`, then `scale = newScale`,
`newWorld = (mouse - offset)/newScale`,
`offset += (newWorld - oldWorld) * newScale`.  No clamping is applied. -/
def handleWheelAccepted (s : CanvasView) (mx my newScale : ℚ) : CanvasView :=
  let oldWorldX := (mx - s.offsetX) / s.scale
  let oldWorldY := (my - s.offsetY) / s.scale
  let newWorldX := (mx - s.offsetX) / newScale
  let newWorldY := (my - s.offsetY) / newScale
  { scale := newScale,
    offsetX := s.offsetX + (newWorldX - oldWorldX) * newScale,
    offsetY := s.offsetY + (newWorldY - oldWorldY) * newScale }

/-- C3 counterexample: zooming from scale 10 (the configured maximum) with the
wheel zoom-in factor 1.1 is accepted by `zoomAtPoint` and yields scale 11,
outside the configured bounds `[MIN_SCALE, MAX_SCALE] = [0.5, 10]`: the code
clamps against hardcoded 0.1/20, not the configured bounds. -/
theorem zoom_scale_escapes_configured_bounds :
    (zoomAtPoint 8000 2000 1620 740 60 ⟨10, 0, 60⟩ 400 300 (11 / 10)).scale = 11 ∧
    ¬ ((zoomAtPoint 8000 2000 1620 740 60 ⟨10, 0, 60⟩ 400 300 (11 / 10)).scale ≤ MAX_SCALE) := by
  have h : zoomAtPoint 8000 2000 1620 740 60 ⟨10, 0, 60⟩ 400 300 (11 / 10) =
      { scale := 11,
        offsetX := clampOffsetX 8000 11 1620 (400 - (400 - 0) / 10 * 11),
        offsetY := clampOffsetY 2000 11 740 60 (300 - (300 - 60) / 10 * 11) } := by
    rw [zoomAtPoint]
    norm_num
  rw [h, MAX_SCALE]
  norm_num

/-- C3 amended: after every `zoomAtPoint`, either the state is unchanged
(requested scale clamps back to the current one) or the new scale lies in the
hardcoded interval `[0.1, 20]` — not the configured `[0.5, 10]`. -/
theorem zoom_scale_hardcoded_bounds (logicalW logicalH finalW finalH headerH : ℚ)
    (s : CanvasView) (px py f : ℚ) :
    zoomAtPoint logicalW logicalH finalW finalH headerH s px py f = s ∨
    (1 / 10 ≤ (zoomAtPoint logicalW logicalH finalW finalH headerH s px py f).scale ∧
     (zoomAtPoint logicalW logicalH finalW finalH headerH s px py f).scale ≤ 20) := by
  rw [zoomAtPoint]
  by_cases h : max (1 / 10) (min 20 (s.scale * f)) = s.scale
  · left
    rw [if_pos h]
  · right
    simp only [if_neg h]
    refine ⟨le_max_left _ _, ?_⟩
    exact max_le (by norm_num) (min_le_left _ _)

/-- Idempotence of the shape `min a (max · b)` used by the
"canvas larger than viewport" clamp branches. -/
theorem min_max_clamp_idem (a b x : ℚ) :
    min a (max (min a (max x b)) b) = min a (max x b) := by
  simp only [min_def, max_def]
  split_ifs <;> linarith

/-- Idempotence of the interval clamp `max lo (min · hi)` used by the
"canvas smaller than viewport" clamp branches. -/
theorem max_min_clamp_idem (lo hi x : ℚ) :
    max lo (min (max lo (min x hi)) hi) = max lo (min x hi) := by
  simp only [min_def, max_def]
  split_ifs <;> linarith

/-- C9: the offset clamp applied after every pan or zoom is idempotent on each
axis, in both the "scaled canvas larger than the visible area" and the
"scaled canvas smaller than the visible area" branches. -/
theorem clamp_offset_idempotent
    (logicalW logicalH scaleV finalW finalH headerH offX offY : ℚ) :
    clampOffsetX logicalW scaleV finalW (clampOffsetX logicalW scaleV finalW offX) =
      clampOffsetX logicalW scaleV finalW offX ∧
    clampOffsetY logicalH scaleV finalH headerH (clampOffsetY logicalH scaleV finalH headerH offY) =
      clampOffsetY logicalH scaleV finalH headerH offY := by
  constructor
  · by_cases h : finalW < logicalW * scaleV
    · simp only [clampOffsetX, if_pos h]
      exact min_max_clamp_idem 0 (finalW - logicalW * scaleV) offX
    · simp only [clampOffsetX, if_neg h]
      exact max_min_clamp_idem (-(max 0 (finalW - logicalW * scaleV)))
        (max 0 (finalW - logicalW * scaleV)) offX
  · by_cases h : finalH < logicalH * scaleV
    · simp only [clampOffsetY, if_pos h]
      exact min_max_clamp_idem headerH (finalH - logicalH * scaleV) offY
    · simp only [clampOffsetY, if_neg h]
      exact max_min_clamp_idem (headerH - max 0 (finalH - logicalH * scaleV))
        (headerH + max 0 (finalH - logicalH * scaleV)) offY

/-- C7 counterexample: zooming out (factor 0.8) at screen point (2000, 300)
from scale 1, offset (0, 0) in a 1620×740 viewport: the formula
`p - ((p - offset)/scale) * newScale` gives offsetX = 400, but `zoomAtPoint`
then clamps it to 0, so the stored offset is not the formula value and the
world point that was under the screen point moves (2000 before, 2500 after). -/
theorem zoom_offset_clamped_counterexample :
    (zoomAtPoint 8000 2000 1620 740 60 ⟨1, 0, 0⟩ 2000 300 (4 / 5)).offsetX = 0 ∧
    (2000 : ℚ) - ((2000 - 0) / 1) * (4 / 5) = 400 ∧
    ((0 : ℚ) ≠ 400) ∧
    ((2000 : ℚ) - 0) / (4 / 5) ≠ ((2000 : ℚ) - 0) / 1 := by
  have h : zoomAtPoint 8000 2000 1620 740 60 ⟨1, 0, 0⟩ 2000 300 (4 / 5) =
      { scale := 4 / 5,
        offsetX := clampOffsetX 8000 (4 / 5) 1620 (2000 - (2000 - 0) / 1 * (4 / 5)),
        offsetY := clampOffsetY 2000 (4 / 5) 740 60 (300 - (300 - 0) / 1 * (4 / 5)) } := by
    rw [zoomAtPoint]
    norm_num
  rw [h]
  refine ⟨?_, by norm_num, by norm_num, by norm_num⟩
  rw [clampOffsetX]
  norm_num

/-- C7 amended: the pre-clamp offset of a zoom is computed by
`offset' = p - ((p - offset)/scale) * newScale`, which preserves the world
point under `p`; in the legacy `PixelCanvas.handleWheel` (no clamp) the stored
offset is exactly that value, so the world point under the cursor is always
preserved for an accepted scale; in `InputController.zoomAtPoint` the stored
offset is additionally bounds-clamped, and in the scenario (factor 1.2 at
(400, 300) from scale 1, offset (0, 0), viewport 1620×740, header 60) the
clamp leaves the formula value unchanged: the result is scale 1.2 with the
world point previously under (400, 300) still under (400, 300). -/
theorem zoom_world_point_preservation :
    (∀ (s : CanvasView) (mx my newScale : ℚ), s.scale ≠ 0 → newScale ≠ 0 →
      (mx - (handleWheelAccepted s mx my newScale).offsetX) / newScale =
        (mx - s.offsetX) / s.scale ∧
      (my - (handleWheelAccepted s mx my newScale).offsetY) / newScale =
        (my - s.offsetY) / s.scale) ∧
    zoomAtPoint 8000 2000 1620 740 60 ⟨1, 0, 0⟩ 400 300 (6 / 5) =
      { scale := 6 / 5, offsetX := -80, offsetY := -60 } ∧
    ((400 : ℚ) - (-80)) / (6 / 5) = ((400 : ℚ) - 0) / 1 ∧
    ((300 : ℚ) - (-60)) / (6 / 5) = ((300 : ℚ) - 0) / 1 := by
  refine ⟨?_, ?_, by norm_num, by norm_num⟩
  · intro s mx my newScale hs hn
    constructor
    · rw [handleWheelAccepted]
      field_simp
      ring
    · rw [handleWheelAccepted]
      field_simp
      ring
  · rw [zoomAtPoint]
    norm_num
    rw [clampOffsetX, clampOffsetY]
    norm_num

/-- Witness for the zoom world-point preservation theorem: wheel zoom from
scale 1, offset (0, 0) to scale 2 about (400, 300) keeps the world point. -/
theorem zoom_world_point_preservation_witness :
    ((400 : ℚ) - (handleWheelAccepted ⟨1, 0, 0⟩ 400 300 2).offsetX) / 2 =
      ((400 : ℚ) - 0) / 1 ∧
    ((300 : ℚ) - (handleWheelAccepted ⟨1, 0, 0⟩ 400 300 2).offsetY) / 2 =
      ((300 : ℚ) - 0) / 1 :=
  zoom_world_point_preservation.1 ⟨1, 0, 0⟩ 400 300 2 (by norm_num) (by norm_num)

/-! ### Cooldown timer (app.js PixelBattleApp.startCooldown / endCooldown)

The one-second interval callback reads `user.cooldownTime`, decrements it and
writes it back with `appState.set` — the StateManager delivers this
notification synchronously, so subscribers observe the intermediate state —
and only then, if the time dropped to 0 or below, calls `endCooldown`, whose
`batchUpdate` applies both writes (`isCooldown := false`,
`cooldownTime := 0`) before notifying. -/

/-- The `user.isCooldown` / `user.cooldownTime` slice of the store. -/
structure UserCooldown where
  isCooldown : Bool
  cooldownTime : ℤ
  deriving DecidableEq

/-- Embedding of `PixelBattleApp.endCooldown`: one `batchUpdate` writing
`user.isCooldown := false` and `user.cooldownTime := 0`; both writes are
applied before the two change notifications fire, so both notified observers
see the final state.  Returns (final state, states observed by subscribers). -/
def endCooldown (_s : UserCooldown) : UserCooldown × List UserCooldown :=
  (⟨false, 0⟩, [⟨false, 0⟩, ⟨false, 0⟩])

/-- One firing of the `startCooldown` interval callback:
`currentTime = get('user.cooldownTime') - 1; set('user.cooldownTime', currentTime)`
(the `set` notifies subscribers synchronously — they observe the state at that
point), then `if (currentTime <= 0) { clearInterval; endCooldown() }`.
Returns (final state, states observed by subscribers during the tick). -/
def cooldownTick (s : UserCooldown) : UserCooldown × List UserCooldown :=
  let currentTime := s.cooldownTime - 1
  let s1 : UserCooldown := ⟨s.isCooldown, currentTime⟩
  if currentTime ≤ 0 then
    let r := endCooldown s1
    (r.1, s1 :: r.2)
  else
    (s1, [s1])

/-- C2 counterexample: on the tick that takes `cooldownTime` from 1 to 0, the
`user.cooldownTime` subscriber is notified (synchronously, inside `set`)
before `endCooldown` runs, and at that notification the state is
`isCooldown = true, cooldownTime = 0`. -/
theorem cooldown_intermediate_state_observed :
    (⟨true, 0⟩ : UserCooldown) ∈ (cooldownTick ⟨true, 1⟩).2 ∧
    (⟨true, 0⟩ : UserCooldown).isCooldown = true ∧
    (⟨true, 0⟩ : UserCooldown).cooldownTime = 0 := by
  refine ⟨?_, rfl, rfl⟩
  rw [cooldownTick]
  norm_num

/-- C2 amended: when `cooldownTime` reaches 0, `endCooldown` runs inside the
same tick callback, so at the end of every tick the store satisfies
`cooldownTime = 0 → isCooldown = false`; however the reconciliation is not
atomic — the synchronous notification of the `cooldownTime` write lets a
subscriber observe `isCooldown = true` with `cooldownTime = 0` mid-tick. -/
theorem cooldown_reconciled_at_tick_end (s : UserCooldown) :
    ((cooldownTick s).1.cooldownTime = 0 → (cooldownTick s).1.isCooldown = false) ∧
    (s.cooldownTime ≤ 1 → (cooldownTick s).1 = ⟨false, 0⟩) := by
  rw [cooldownTick]
  by_cases h : s.cooldownTime - 1 ≤ 0
  · simp [h, endCooldown]
  · constructor
    · simp only [if_neg h]
      intro hz
      omega
    · intro hle
      omega

/-- Witness for the cooldown reconciliation theorem: the tick from
`isCooldown = true, cooldownTime = 1` ends in `isCooldown = false,
cooldownTime = 0`. -/
theorem cooldown_reconciled_at_tick_end_witness :
    (cooldownTick ⟨true, 1⟩).1 = ⟨false, 0⟩ :=
  (cooldown_reconciled_at_tick_end ⟨true, 1⟩).2 (by norm_num)

/-! ### Reconnect backoff (modules/WebSocketManager.js scheduleReconnect)

`config.reconnectInterval = 1000`, `config.maxReconnectInterval = 30000`,
`config.maxReconnectAttempts = 10`. -/

/-- Value of `WebSocketManager.config.reconnectInterval` (initial delay, ms). -/
def reconnectInterval : ℚ := 1000

/-- Value of `WebSocketManager.config.maxReconnectInterval` (delay cap, ms). -/
def maxReconnectInterval : ℚ := 30000

/-- Exponential backoff base delay for attempt number `n`:
`Math.min(reconnectInterval * Math.pow(2, attempts - 1), maxReconnectInterval)`. -/
def scheduleBaseDelay (attempt : ℕ) : ℚ :=
  min (reconnectInterval * 2 ^ (attempt - 1)) maxReconnectInterval

/-- Scheduled delay including jitter, for `Math.random()` outcome `r`:
`jitter = baseDelay * 0.1 * r; delay = baseDelay + jitter`. -/
def scheduleDelay (attempt : ℕ) (r : ℚ) : ℚ :=
  scheduleBaseDelay attempt + scheduleBaseDelay attempt * (1 / 10) * r

/-- C4: for every attempt `1 ≤ n ≤ 10` and random outcome `0 ≤ r < 1`, the
scheduled delay equals `min(1000 · 2^(n−1), 30000)` plus a jitter that is
added (never subtracted) and at most 10% of that base delay; ignoring jitter
the base delay is non-decreasing in `n` and never exceeds the 30000 cap. -/
theorem backoff_delay_properties (n : ℕ) (r : ℚ)
    (h1 : 1 ≤ n) (hmax : n ≤ 10) (hr0 : 0 ≤ r) (hr1 : r < 1) :
    scheduleBaseDelay n = min (1000 * 2 ^ (n - 1)) 30000 ∧
    scheduleBaseDelay n ≤ scheduleDelay n r ∧
    scheduleDelay n r ≤ scheduleBaseDelay n + scheduleBaseDelay n * (1 / 10) ∧
    scheduleBaseDelay n ≤ scheduleBaseDelay (n + 1) ∧
    scheduleBaseDelay n ≤ 30000 := by
  have hb : (0 : ℚ) ≤ scheduleBaseDelay n := by
    rw [scheduleBaseDelay, reconnectInterval, maxReconnectInterval]
    positivity
  refine ⟨rfl, ?_, ?_, ?_, ?_⟩
  · rw [scheduleDelay]
    nlinarith
  · rw [scheduleDelay]
    nlinarith
  · rw [scheduleBaseDelay, scheduleBaseDelay]
    refine min_le_min (mul_le_mul_of_nonneg_left ?_ (by rw [reconnectInterval]; norm_num)) le_rfl
    exact pow_le_pow_right₀ (by norm_num) (by omega)
  · rw [scheduleBaseDelay, maxReconnectInterval]
    exact min_le_right _ _

/-- Witness for the backoff theorem at attempt 3 with random outcome 1/2. -/
theorem backoff_delay_properties_witness :
    scheduleBaseDelay 3 = min (1000 * 2 ^ (3 - 1)) 30000 ∧
    scheduleBaseDelay 3 ≤ scheduleDelay 3 (1 / 2) ∧
    scheduleDelay 3 (1 / 2) ≤ scheduleBaseDelay 3 + scheduleBaseDelay 3 * (1 / 10) ∧
    scheduleBaseDelay 3 ≤ scheduleBaseDelay 4 ∧
    scheduleBaseDelay 3 ≤ 30000 :=
  backoff_delay_properties 3 (1 / 2) (by norm_num) (by norm_num) (by norm_num) (by norm_num)

/-! ### Reconnect attempt cap (WebSocketManager.scheduleReconnect,
handleOpen, disconnect); `config.maxReconnectAttempts = 10`. -/

/-- What `scheduleReconnect` does besides updating the counter: either it
gives up (pushes the persistent "could not connect" notification and
schedules nothing) or it schedules one reconnect timer for the given
attempt number. -/
inductive ReconnectAction where
  | giveUp : ReconnectAction
  | schedule : ℕ → ReconnectAction
  deriving DecidableEq

/-- Embedding of `WebSocketManager.scheduleReconnect`: when
`reconnectAttempts >= maxReconnectAttempts` (10) it returns after surfacing a
persistent error notification, without incrementing the counter or setting a
timer; otherwise it increments the counter and schedules an attempt. -/
def scheduleReconnect (attempts : ℕ) : ℕ × ReconnectAction :=
  if 10 ≤ attempts then (attempts, ReconnectAction.giveUp)
  else (attempts + 1, ReconnectAction.schedule (attempts + 1))

/-- The transport events that touch the attempt counter. -/
inductive WSEvent where
  | opened
  | manualDisconnect
  | abnormalClose
  deriving DecidableEq

/-- Effect of one event on `reconnectAttempts`: `handleOpen` and
`disconnect()` reset it to 0; an abnormal closure (`event.code !== 1000`)
runs `scheduleReconnect`. -/
def stepAttempts (a : ℕ) : WSEvent → ℕ
  | WSEvent.opened => 0
  | WSEvent.manualDisconnect => 0
  | WSEvent.abnormalClose => (scheduleReconnect a).1

/-- Value of `connection.reconnectAttempts` after a sequence of transport events, starting from
the constructor's initial value 0. -/
def attemptsAfter (events : List WSEvent) : ℕ :=
  events.foldl stepAttempts 0

/-- The attempt counter never leaves `[0, 10]` in one step. -/
theorem stepAttempts_le (a : ℕ) (e : WSEvent) (h : a ≤ 10) : stepAttempts a e ≤ 10 := by
  cases e with
  | opened => simp [stepAttempts]
  | manualDisconnect => simp [stepAttempts]
  | abnormalClose =>
      rw [stepAttempts, scheduleReconnect]
      split_ifs <;> omega

/-- Invariant form for the fold. -/
theorem foldl_stepAttempts_le (events : List WSEvent) :
    ∀ a : ℕ, a ≤ 10 → events.foldl stepAttempts a ≤ 10 := by
  induction events with
  | nil => intro a h; simpa using h
  | cons e es ih =>
      intro a h
      exact ih (stepAttempts a e) (stepAttempts_le a e h)

/-- C5: in every reachable state, `connection.reconnectAttempts ≤ 10`, and
once the counter has reached 10 an abnormal closure schedules no further
connection attempt — `scheduleReconnect` gives up (surfacing the persistent
error notification) and leaves the counter at 10. -/
theorem reconnect_attempts_capped :
    (∀ events : List WSEvent, attemptsAfter events ≤ 10) ∧
    scheduleReconnect 10 = (10, ReconnectAction.giveUp) := by
  constructor
  · intro events
    exact foldl_stepAttempts_le events 0 (by norm_num)
  · rw [scheduleReconnect]
    norm_num

/-! ### Outbound message queue (WebSocketManager.send, flushMessageQueue)

Messages are modelled by ℕ (their serialized content is irrelevant here);
`sent` records the messages transmitted over the open transport, in order. -/

/-- Session-manager state relevant to queueing: whether
`ws.readyState === WebSocket.OPEN`, the `messageQueue`, and the list of
messages handed to the transport so far. -/
structure WSQueueState where
  wsOpen : Bool
  messageQueue : List ℕ
  sent : List ℕ
  deriving DecidableEq

/-- Embedding of `WebSocketManager.send(message, queueIfDisconnected)`: if the transport is
open, transmit and return true; otherwise, if the flag is set, append the
message to `messageQueue` and return false (else drop it and return false). -/
def wsSend (s : WSQueueState) (m : ℕ) (queueIfDisconnected : Bool) : WSQueueState × Bool :=
  if s.wsOpen then
    ({ s with sent := s.sent ++ [m] }, true)
  else if queueIfDisconnected then
    ({ s with messageQueue := s.messageQueue ++ [m] }, false)
  else
    (s, false)

/-- Embedding of `WebSocketManager.flushMessageQueue` (called from `handleOpen`): if the
queue is empty do nothing; otherwise copy the queue, clear it, and send each
copied message with `queueIfDisconnected = false`. -/
def flushMessageQueue (s : WSQueueState) : WSQueueState :=
  if s.messageQueue.isEmpty then s
  else
    let messages := s.messageQueue
    let s1 := { s with messageQueue := ([] : List ℕ) }
    messages.foldl (fun st m => (wsSend st m false).1) s1

/-- Flushing over an open transport transmits the whole list in order. -/
theorem foldl_wsSend_open (ms : List ℕ) :
    ∀ queue sent : List ℕ,
      ms.foldl (fun st m => (wsSend st m false).1) ⟨true, queue, sent⟩ =
        ⟨true, queue, sent ++ ms⟩ := by
  induction ms with
  | nil => intro queue sent; simp
  | cons m ms ih =>
      intro queue sent
      rw [List.foldl_cons]
      have hstep : (wsSend ⟨true, queue, sent⟩ m false).1 = ⟨true, queue, sent ++ [m]⟩ := by
        rw [wsSend]
        simp
      rw [hstep, ih queue (sent ++ [m])]
      simp

/-- C6: a message sent while the transport is not open with queueing enabled
is appended to the queue (FIFO); a non-queueing send while not open does not
touch the queue (so a failed flush transmission is not re-enqueued); and on
an open transport the flush transmits exactly the queued messages, oldest
first, appended once each after the previously sent ones, leaving the queue
empty. -/
theorem message_queue_fifo_flush (queue sent : List ℕ) (m : ℕ) :
    wsSend ⟨false, queue, sent⟩ m true = (⟨false, queue ++ [m], sent⟩, false) ∧
    wsSend ⟨false, queue, sent⟩ m false = (⟨false, queue, sent⟩, false) ∧
    flushMessageQueue ⟨true, queue, sent⟩ = ⟨true, [], sent ++ queue⟩ := by
  refine ⟨by rw [wsSend]; simp, by rw [wsSend]; simp, ?_⟩
  rw [flushMessageQueue]
  by_cases h : queue = []
  · subst h
    simp
  · have h' : (⟨true, queue, sent⟩ : WSQueueState).messageQueue.isEmpty = false := by
      simpa [List.isEmpty_iff] using h
    rw [h']
    simpa using foldl_wsSend_open queue [] sent

/-! ### Pixel-update message handling
(modules/WebSocketManager.js handlePixelUpdate; websocket.js onmessage)

A `pixel_update` message may carry a single cell (`x`, `y`, `color`) or a
batch (`updates: [{x,y,color}, ...]`).  Absent JSON fields are `undefined`,
modelled by `none`.  The pixel maps are keyed by the template string
`` `${x},${y}` ``, modelled as the pair of the (possibly undefined) field
values; colors are modelled by ℕ. -/

/-- A `pixel_update` message as received; each field may be absent. -/
structure PixelMsg where
  x : Option ℤ
  y : Option ℤ
  color : Option ℕ
  updates : Option (List (ℤ × ℤ × ℕ))

/-- A pixel map (`canvas.pixels` / `pixelCanvas.pixels`): from the
`` `${x},${y}` `` key to the stored color (`none` = absent). -/
def PixelMap : Type := Option ℤ × Option ℤ → Option ℕ

/-- Operation `Map.set(key, color)` on a pixel map. -/
def mapSet (px : PixelMap) (k : Option ℤ × Option ℤ) (c : Option ℕ) : PixelMap :=
  fun k' => if k' = k then c else px k'

/-- The empty pixel map. -/
def emptyPixels : PixelMap := fun _ => none

/-- Embedding of `WebSocketManager.handlePixelUpdate`: builds the key from `message.x` and
`message.y` and stores `message.color` there — it never looks at
`message.updates`. -/
def handlePixelUpdate (px : PixelMap) (m : PixelMsg) : PixelMap :=
  mapSet px (m.x, m.y) m.color

/-- Embedding of `PixelCanvas.setPixel(x, y, color)` (static/js/canvas.js). -/
def setPixel (px : PixelMap) (x y : ℤ) (c : ℕ) : PixelMap :=
  mapSet px (some x, some y) (some c)

/-- The `pixel_update` case of the legacy `ws.onmessage`
(static/js/websocket.js): if `Array.isArray(message.updates)`, apply
`setPixel` to every entry in order; otherwise apply the single-cell form. -/
def wsOnPixelUpdate (px : PixelMap) (m : PixelMsg) : PixelMap :=
  match m.updates with
  | some ups => ups.foldl (fun acc u => setPixel acc u.1 u.2.1 u.2.2) px
  | none => mapSet px (m.x, m.y) m.color

/-- C8 counterexample: the modular `WebSocketManager.handlePixelUpdate`
receiving the batched message `{type: "pixel_update", updates: [{x:1, y:2,
color:5}]}` does not map cell (1,2) to color 5 — it ignores the `updates`
list and writes the key built from the absent `x`/`y` fields instead. -/
theorem batched_update_ignored_by_manager :
    handlePixelUpdate emptyPixels ⟨none, none, none, some [(1, 2, 5)]⟩ (some 1, some 2) ≠
      some 5 ∧
    handlePixelUpdate emptyPixels ⟨none, none, none, some [(1, 2, 5)]⟩ (some 1, some 2) =
      none := by
  constructor
  · rw [handlePixelUpdate, mapSet]
    simp [emptyPixels]
  · rw [handlePixelUpdate, mapSet]
    simp [emptyPixels]

/-- C8 amended: only the legacy `websocket.js` handler supports batches —
there, a batched `pixel_update` has exactly the same effect as the
corresponding single-cell messages applied in list order (each listed cell
ends up with its listed color, later duplicates winning); the modular
`WebSocketManager.handlePixelUpdate` handles only the single-cell form. -/
theorem batched_update_equals_singles :
    (∀ (px : PixelMap) (ups : List (ℤ × ℤ × ℕ)),
      wsOnPixelUpdate px ⟨none, none, none, some ups⟩ =
        ups.foldl
          (fun acc u => wsOnPixelUpdate acc ⟨some u.1, some u.2.1, some u.2.2, none⟩) px) ∧
    (∀ (px : PixelMap) (x y : ℤ) (c : ℕ),
      wsOnPixelUpdate px ⟨none, none, none, some [(x, y, c)]⟩ (some x, some y) = some c) ∧
    (∀ (px : PixelMap) (x y : ℤ) (c1 c2 : ℕ),
      wsOnPixelUpdate px ⟨none, none, none, some [(x, y, c1), (x, y, c2)]⟩ (some x, some y) =
        some c2) := by
  refine ⟨fun px ups => rfl, ?_, ?_⟩
  · intro px x y c
    rw [wsOnPixelUpdate]
    simp [setPixel, mapSet]
  · intro px x y c1 c2
    rw [wsOnPixelUpdate]
    simp [setPixel, mapSet]

/-! ### State store (modules/StateManager.js)

Dotted paths are modelled as lists of path components (ℕ-labelled); the
nested state object as a tree of objects over primitive leaves.  A subscriber
callback is modelled by its registration identity plus whether it throws when
invoked; `_notifySubscribers` wraps every callback invocation in its own
`try/catch`, so an invocation yields an `Outcome` — normal return or caught
exception — and the loop always continues. -/

/-- A JavaScript value stored in the state tree. -/
inductive JVal where
  | prim : ℕ → JVal
  | obj : List (ℕ × JVal) → JVal

/-- Property lookup on an object (`current?.[key]`). -/
def objGet : List (ℕ × JVal) → ℕ → Option JVal
  | [], _ => none
  | (k0, v0) :: fs, k => if k = k0 then some v0 else objGet fs k

/-- Property assignment on an object (`target[key] = value`). -/
def objSet : List (ℕ × JVal) → ℕ → JVal → List (ℕ × JVal)
  | [], k, v => [(k, v)]
  | (k0, v0) :: fs, k, v => if k = k0 then (k0, v) :: fs else (k0, v0) :: objSet fs k v

/-- Embedding of `StateManager._getNestedValue`:
`path.split('.').reduce((current, key) => current?.[key], obj)`;
`none` models `undefined`. -/
def getNested : JVal → List ℕ → Option JVal
  | v, [] => some v
  | JVal.prim _, _ :: _ => none
  | JVal.obj fs, k :: ks =>
      match objGet fs k with
      | none => none
      | some v => getNested v ks

/-- Embedding of `StateManager._setNestedValue`: walks the path, creating `{}` for missing
intermediate keys, and assigns the value at the last key.  `none` models the
TypeError thrown (strict mode) when the walk runs through a primitive. -/
def setNested : JVal → List ℕ → JVal → Option JVal
  | JVal.obj fs, [k], x => some (JVal.obj (objSet fs k x))
  | JVal.obj fs, k :: k2 :: ks, x =>
      match setNested ((objGet fs k).getD (JVal.obj [])) (k2 :: ks) x with
      | none => none
      | some c => some (JVal.obj (objSet fs k c))
  | _, _, _ => none

/-- A registered subscriber callback: its identity and whether invoking it
throws. -/
structure Callback where
  id : ℕ
  throws : Bool
  deriving DecidableEq

/-- Result of one callback invocation inside `_notifySubscribers`' per-call
`try/catch`: normal return, or an exception caught (and logged). -/
inductive Outcome where
  | ok : ℕ → Outcome
  | caught : ℕ → Outcome
  deriving DecidableEq

/-- The callback id an outcome belongs to. -/
def Outcome.cbId : Outcome → ℕ
  | Outcome.ok i => i
  | Outcome.caught i => i

/-- Invoke one callback inside its own `try { ... } catch { log }`: total —
an exception never escapes the notification loop. -/
def runCallback (c : Callback) : Outcome :=
  if c.throws then Outcome.caught c.id else Outcome.ok c.id

/-- The ancestor paths notified by `_notifySubscribers`: for
`i = pathParts.length - 1` down to `1`, the first `i` components. -/
def parentPaths (path : List ℕ) : List (List ℕ) :=
  ((List.range (path.length - 1)).reverse).map (fun i => path.take (i + 1))

/-- The store: current state tree plus the path → subscriber-set map. -/
structure StoreModel where
  state : JVal
  subs : List ℕ → List Callback

/-- Embedding of `StateManager._notifySubscribers(path, value, oldValue)`: invoke every
exact-path subscriber, then every subscriber of every ancestor path, each in
its own `try/catch`; returns the outcomes in invocation order. -/
def notifySubscribers (st : StoreModel) (path : List ℕ) : List Outcome :=
  (st.subs path).map runCallback ++
    (parentPaths path).flatMap (fun pp => (st.subs pp).map runCallback)

/-- The ids of all callbacks registered on the path or an ancestor, in
notification order. -/
def registeredIds (st : StoreModel) (path : List ℕ) : List ℕ :=
  (st.subs path).map Callback.id ++
    (parentPaths path).flatMap (fun pp => (st.subs pp).map Callback.id)

/-- Embedding of `StateManager.set(path, value)`: apply the write, then synchronously
notify; returns the new store and the invocation outcomes (`none` only when
the write itself throws). -/
def storeSet (st : StoreModel) (path : List ℕ) (v : JVal) :
    Option (StoreModel × List Outcome) :=
  match setNested st.state path v with
  | none => none
  | some s1 =>
      some ({ st with state := s1 }, notifySubscribers { st with state := s1 } path)

/-- Embedding of `StateManager.batchUpdate(updates)`: apply every write first, then fire
the notifications for each change in order. -/
def storeBatchUpdate (st : StoreModel) (updates : List (List ℕ × JVal)) :
    Option (StoreModel × List Outcome) :=
  match updates.foldlM (fun s pv => setNested s pv.1 pv.2) st.state with
  | none => none
  | some s1 =>
      some ({ st with state := s1 },
        updates.flatMap (fun pv => notifySubscribers { st with state := s1 } pv.1))

/-- Writing then reading the same path yields the written value. -/
theorem objGet_objSet_self (fs : List (ℕ × JVal)) (k : ℕ) (x : JVal) :
    objGet (objSet fs k x) k = some x := by
  induction fs with
  | nil => simp [objSet, objGet]
  | cons f fs ih =>
      rw [objSet]
      by_cases h : k = f.1
      · simp [h, objGet]
      · simp only [if_neg h]
        rw [objGet, if_neg h]
        exact ih

/-- A successful nested write stores the value at the path. -/
theorem getNested_setNested (p : List ℕ) :
    ∀ (v x v' : JVal), setNested v p x = some v' → getNested v' p = some x := by
  induction p with
  | nil =>
      intro v x v' h
      cases v <;> simp [setNested] at h
  | cons k rest ih =>
      intro v x v' h
      cases v with
      | prim n => simp [setNested] at h
      | obj fs =>
          cases rest with
          | nil =>
              rw [setNested] at h
              obtain rfl : JVal.obj (objSet fs k x) = v' := by
                simpa using h
              rw [getNested, objGet_objSet_self]
              simp [getNested]
          | cons k2 ks =>
              rw [setNested] at h
              cases hc : setNested ((objGet fs k).getD (JVal.obj [])) (k2 :: ks) x with
              | none => rw [hc] at h; simp at h
              | some c =>
                  rw [hc] at h
                  obtain rfl : JVal.obj (objSet fs k c) = v' := by
                    simpa using h
                  rw [getNested, objGet_objSet_self]
                  exact ih _ x c hc

/-- The ids of the outcomes of a notification pass are exactly the registered
ids, independent of which callbacks throw. -/
theorem notifySubscribers_ids (st : StoreModel) (path : List ℕ) :
    (notifySubscribers st path).map Outcome.cbId = registeredIds st path := by
  have hrun : ∀ c : Callback, (runCallback c).cbId = c.id := by
    intro c
    rw [runCallback]
    by_cases h : c.throws <;> simp [h, Outcome.cbId]
  rw [notifySubscribers, registeredIds]
  simp only [List.map_append, List.map_flatMap, List.map_map]
  have hfun : (Outcome.cbId ∘ runCallback) = Callback.id := funext hrun
  rw [hfun]

/-- C10: an exception thrown by a subscriber callback during `set` or
`batchUpdate` is contained in the notification loop: the call still returns
normally (it fails only when the write itself fails, never because of a
subscriber), the written value remains readable at the path, and every
subscriber of the path and of every ancestor path is still invoked, in
order, exactly once — regardless of which callbacks throw. -/
theorem subscriber_exception_contained (st : StoreModel) (path : List ℕ) (v : JVal)
    (st' : StoreModel) (outs : List Outcome)
    (h : storeSet st path v = some (st', outs)) :
    getNested st'.state path = some v ∧
    outs.map Outcome.cbId = registeredIds st' path ∧
    (∀ (s : StoreModel) (p : List ℕ) (x : JVal),
      (storeSet s p x).isSome = (setNested s.state p x).isSome) ∧
    (∀ (s : StoreModel) (ups : List (List ℕ × JVal)) (s' : StoreModel) (os : List Outcome),
      storeBatchUpdate s ups = some (s', os) →
      os.map Outcome.cbId = ups.flatMap (fun pv => registeredIds s' pv.1)) := by
  rw [storeSet] at h
  cases hs : setNested st.state path v with
  | none => rw [hs] at h; simp at h
  | some s1 =>
      rw [hs] at h
      simp only [Option.some.injEq, Prod.mk.injEq] at h
      obtain ⟨hst, houts⟩ := h
      refine ⟨?_, ?_, ?_, ?_⟩
      · rw [← hst]
        exact getNested_setNested path st.state v s1 hs
      · rw [← houts, ← hst]
        exact notifySubscribers_ids _ path
      · intro s p x
        rw [storeSet]
        cases hsx : setNested s.state p x <;> simp
      · intro s ups s' os hb
        rw [storeBatchUpdate] at hb
        cases hf : ups.foldlM (fun s pv => setNested s pv.1 pv.2) s.state with
        | none => rw [hf] at hb; simp at hb
        | some sf =>
            rw [hf] at hb
            simp only [Option.some.injEq, Prod.mk.injEq] at hb
            obtain ⟨hb1, hb2⟩ := hb
            rw [← hb2, List.map_flatMap]
            refine List.flatMap_congr ?_
            intro pv _
            rw [← hb1]
            exact notifySubscribers_ids _ pv.1

/-- A concrete subscriber map: a throwing and a normal callback on path
`[0, 1]`, one callback on the ancestor path `[0]`. -/
def c10Subs : List ℕ → List Callback := fun p =>
  if p = [0, 1] then [⟨10, true⟩, ⟨11, false⟩]
  else if p = [0] then [⟨12, false⟩] else []

/-- A concrete store holding `{0: {1: 3}}` with the subscribers above. -/
def c10Store : StoreModel :=
  { state := JVal.obj [(0, JVal.obj [(1, JVal.prim 3)])], subs := c10Subs }

/-- The store after writing 7 at path `[0, 1]`. -/
def c10StoreAfter : StoreModel :=
  { state := JVal.obj [(0, JVal.obj [(1, JVal.prim 7)])], subs := c10Subs }

/-- The outcomes of that write's notification pass: the first callback's
exception is caught, the remaining exact-path and ancestor callbacks still
run. -/
def c10Outs : List Outcome := [Outcome.caught 10, Outcome.ok 11, Outcome.ok 12]

/-- Witness for the exception-containment theorem on the concrete store. -/
theorem subscriber_exception_contained_witness :
    getNested c10StoreAfter.state [0, 1] = some (JVal.prim 7) ∧
    c10Outs.map Outcome.cbId = registeredIds c10StoreAfter [0, 1] := by
  have h := subscriber_exception_contained c10Store [0, 1] (JVal.prim 7)
    c10StoreAfter c10Outs rfl
  exact ⟨h.1, h.2.1⟩

end PixelBattle
